import Mathlib

set_option autoImplicit false
set_option maxHeartbeats 1000000
set_option linter.unusedVariables false

/- Shallow embedding of src/nl.rs from socketcan-rs: netlink-based management
   of Linux CAN network interfaces.  Pure data and decision logic of the
   source are translated directly; the kernel socket is modelled by passing
   each function the outcome of its socket calls (send/recv), so that every
   branch the Rust code takes on those outcomes appears here as a branch on
   an explicit argument. -/

/-- Errors of the `neli` netlink library as used by src/nl.rs (`NlError`).
`Nlmsgerr` carries the kernel's numeric error code, `Ser`/`De` carry the
message of a (de)serialization failure, `Msg` is a free-form error message. -/
inductive NlError where
  | Msg (s : String)
  | NoAck
  | BadSeq
  | BadPid
  | Nlmsgerr (code : Int)
  | Ser (s : String)
  | De (s : String)
  deriving DecidableEq

/-- `NlPayload` of a received netlink message as seen by src/nl.rs.  In
`neli`, `Ack` carries the acknowledgement record (whose contents the source
never reads), and error records are surfaced by `recv` as
`Err(NlError::Nlmsgerr ..)` before any header is returned; so the header
payloads reaching this code are a typed payload, an ack, or nothing. -/
inductive NlPayload (P : Type) where
  | Payload (p : P)
  | Ack
  | Empty
  deriving DecidableEq

/-- A received netlink message header (`Nlmsghdr`), reduced to the single
field src/nl.rs inspects: its payload. -/
structure Nlmsghdr (P : Type) where
  nl_payload : NlPayload P
  deriving DecidableEq

/-- `Nlmsghdr::get_payload`: `Ok` (here `some`) exactly on a `Payload`
variant; the source only ever discriminates success via `if let Ok(..)`. -/
def Nlmsghdr.get_payload {P : Type} (hdr : Nlmsghdr P) : Option P :=
  match hdr.nl_payload with
  | .Payload p => some p
  | _ => none

/-- Netlink message header flags (`NlmF`) used by src/nl.rs. -/
inductive NlmF where
  | Request
  | Ack
  | Create
  | Excl
  deriving DecidableEq

/-- `send_info_msg` builds its header flags as
`NlmFFlags::new(&[NlmF::Request, NlmF::Ack])` and then `set`s each of the
caller's `additional_flags`. -/
def send_info_msg_flags (additional_flags : List NlmF) : List NlmF :=
  [NlmF.Request, NlmF.Ack] ++ additional_flags

/-- Flags of the `create` request: `send_info_msg(.., &[NlmF::Create, NlmF::Excl])`. -/
def create_flags : List NlmF := send_info_msg_flags [NlmF.Create, NlmF.Excl]

/-- Flags of the `delete` request: `send_info_msg(.., &[])`. -/
def delete_flags : List NlmF := send_info_msg_flags []

/-- Flags of the `bring_up` request: `send_info_msg(.., &[])`. -/
def bring_up_flags : List NlmF := send_info_msg_flags []

/-- Flags of the `bring_down` request: `send_info_msg(.., &[])`. -/
def bring_down_flags : List NlmF := send_info_msg_flags []

/-- Flags of the `set_mtu` request: `send_info_msg(.., &[])`. -/
def set_mtu_flags : List NlmF := send_info_msg_flags []

/-- Flags of the `set_bitrate` request: `send_info_msg(.., &[])`. -/
def set_bitrate_flags : List NlmF := send_info_msg_flags []

/-- Flags of the `details` query: it builds its own header with
`NlmFFlags::new(&[NlmF::Request])`. -/
def details_flags : List NlmF := [NlmF.Request]

/-- The `CanInterface` handle: identity only, an interface index. -/
structure CanInterface where
  if_index : Nat
  deriving DecidableEq

/-- The `#[repr(u32)]` MTU enum of src/nl.rs. -/
inductive Mtu where
  | Standard
  | Fd
  deriving DecidableEq

/-- Numeric value of the MTU enum (`Mtu::Standard as u32`, `Mtu::Fd as u32`). -/
def Mtu.code : Mtu → Nat
  | .Standard => 16
  | .Fd => 72

/-- The `Details` result of `CanInterface::details`. -/
structure Details where
  name : Option String
  index : Nat
  is_up : Bool
  mtu : Option Mtu
  deriving DecidableEq

/-- Link-level route attribute type (`Ifla`) as discriminated by the decode
loop in `details`; every value that loop does not inspect is collapsed into
`Other` (matching its `_ => ()` arm). -/
inductive Ifla where
  | Ifname
  | Mtu
  | Other (code : Nat)
  deriving DecidableEq

/-- A received route attribute (`Rtattr`) as handed to src/nl.rs by `neli`:
a typed tag and its raw payload bytes. -/
structure Rtattr where
  rta_type : Ifla
  rta_payload : List Nat
  deriving DecidableEq

/-- Interface flag bits (`Iff`); src/nl.rs only ever tests `Iff::Up`. -/
inductive IffFlag where
  | Up
  | Other (code : Nat)
  deriving DecidableEq

/-- The received interface-info message (`Ifinfomsg`) as inspected by
`details`: the interface flags and the attribute list. -/
structure Ifinfomsg where
  ifi_flags : List IffFlag
  rtattrs : List Rtattr
  deriving DecidableEq

/-- Strict UTF-8 decoding of a byte sequence, as performed by Rust's
`CString::into_string` (via `str::from_utf8`): rejects continuation-byte
starts, overlong encodings, surrogate code points and values above
U+10FFFF. -/
def utf8Decode : List Nat → Option (List Char)
  | [] => some []
  | b0 :: rest =>
    if b0 < 0x80 then
      match utf8Decode rest with
      | some cs => some (Char.ofNat b0 :: cs)
      | none => none
    else if b0 < 0xC2 then
      none
    else if b0 < 0xE0 then
      match rest with
      | b1 :: rest2 =>
        if 0x80 ≤ b1 ∧ b1 < 0xC0 then
          match utf8Decode rest2 with
          | some cs => some (Char.ofNat ((b0 - 0xC0) * 64 + (b1 - 0x80)) :: cs)
          | none => none
        else none
      | [] => none
    else if b0 < 0xF0 then
      match rest with
      | b1 :: b2 :: rest3 =>
        if ((if b0 = 0xE0 then 0xA0 else 0x80) ≤ b1 ∧
              b1 < (if b0 = 0xED then 0xA0 else 0xC0)) ∧
            (0x80 ≤ b2 ∧ b2 < 0xC0) then
          match utf8Decode rest3 with
          | some cs =>
            some (Char.ofNat ((b0 - 0xE0) * 4096 + (b1 - 0x80) * 64 + (b2 - 0x80)) :: cs)
          | none => none
        else none
      | _ => none
    else if b0 < 0xF5 then
      match rest with
      | b1 :: b2 :: b3 :: rest4 =>
        if ((if b0 = 0xF0 then 0x90 else 0x80) ≤ b1 ∧
              b1 < (if b0 = 0xF4 then 0x90 else 0xC0)) ∧
            (0x80 ≤ b2 ∧ b2 < 0xC0) ∧ (0x80 ≤ b3 ∧ b3 < 0xC0) then
          match utf8Decode rest4 with
          | some cs =>
            some (Char.ofNat ((b0 - 0xF0) * 262144 + (b1 - 0x80) * 4096 +
              (b2 - 0x80) * 64 + (b3 - 0x80)) :: cs)
          | none => none
        else none
      | _ => none
    else none

/-- `CString::from_vec_with_nul`: succeeds exactly when the byte vector ends
in a NUL byte and contains no interior NUL; yields the bytes without the
terminator. -/
def cStringFromVecWithNul (bs : List Nat) : Option (List Nat) :=
  match bs.getLast? with
  | some 0 => if bs.dropLast.all (fun b => b != 0) then some bs.dropLast else none
  | _ => none

/-- The interface-name decoding of `details`:
`CString::from_vec_with_nul(..)` followed by `CString::into_string()`. -/
def decodeName (bs : List Nat) : Option String :=
  match cStringFromVecWithNul bs with
  | some inner =>
    match utf8Decode inner with
    | some cs => some (String.mk cs)
    | none => none
  | none => none

/-- `u32::from_ne_bytes` on the 4 copied payload bytes (native order is
little-endian on the supported targets). -/
def u32FromNeBytes : List Nat → Nat
  | [b0, b1, b2, b3] => b0 + 256 * b1 + 65536 * b2 + 16777216 * b3
  | _ => 0

/-- One iteration of the attribute loop in `CanInterface::details`:
`Ifla::Ifname` sets the name when the NUL-terminated UTF-8 decode succeeds;
`Ifla::Mtu` with a 4-byte payload assigns the allow-listed MTU (16, 72, or
`None` for anything else); every other attribute is ignored. -/
def details_attr_step (info : Details) (attr : Rtattr) : Details :=
  match attr.rta_type with
  | .Ifname =>
    match decodeName attr.rta_payload with
    | some s => { info with name := some s }
    | none => info
  | .Mtu =>
    if attr.rta_payload.length = 4 then
      { info with
        mtu :=
          match u32FromNeBytes attr.rta_payload with
          | 16 => some Mtu.Standard
          | 72 => some Mtu.Fd
          | _ => none }
    else info
  | .Other _ => info

/-- `CanInterface::details`, from the point where the reply is read:
`recv_result` is the outcome of `nl.recv::<Rtm, Ifinfomsg>()` (its `?`
propagates errors).  `Some` reply: build the default `Details` (index taken
from the handle), and if the payload extracts, fill `is_up` from the flags
and run the attribute loop; `None` reply: `Err(NlError::NoAck)`. -/
def CanInterface.details (iface : CanInterface)
    (recv_result : Except NlError (Option (Nlmsghdr Ifinfomsg))) :
    Except NlError Details :=
  match recv_result with
  | .error e => .error e
  | .ok (some msg_hdr) =>
    let base : Details :=
      { name := none, index := iface.if_index, is_up := false, mtu := none }
    match msg_hdr.get_payload with
    | some payload =>
      .ok (payload.rtattrs.foldl details_attr_step
        { base with is_up := payload.ifi_flags.contains IffFlag.Up })
    | none => .ok base
  | .ok none => .error NlError.NoAck

/-- `CanInterface::send_and_read_ack`, from the point where the reply is
read: `Ok` exactly when a reply arrived and it is an `Ack` record, otherwise
`Err(NlError::NoAck)`; errors of `recv` itself (including kernel error
records, which `neli` turns into `Err(Nlmsgerr)`) propagate through `?`. -/
def send_and_read_ack {P : Type}
    (recv_result : Except NlError (Option (Nlmsghdr P))) : Except NlError Unit :=
  match recv_result with
  | .error e => .error e
  | .ok (some hdr) =>
    match hdr.nl_payload with
    | .Ack => .ok ()
    | _ => .error NlError.NoAck
  | .ok none => .error NlError.NoAck

/-- Whether an `NlError` is an explicit kernel error record
(`NlError::Nlmsgerr`); used to state that `NoAck` and the create-race `Msg`
error are a different failure class than a kernel error code. -/
def NlError.isKernelCode : NlError → Bool
  | .Nlmsgerr _ => true
  | _ => false

/-- The message text of the race error in `CanInterface::create`. -/
def create_race_msg : String :=
  "Interface must have been deleted between request and this if_nametoindex"

/-- `CanInterface::create`, from the point where the creation request has
been answered: `send_result` is the outcome of `send_info_msg` (propagated
by `?`), `resolved_index` the outcome of the follow-up
`if_nametoindex(name)`.  With an explicit index the handle is bound to it
directly; otherwise the name is re-resolved, and a failed resolution yields
the distinct `NlError::Msg` race error. -/
def CanInterface.create (name : String) (index : Option Nat)
    (send_result : Except NlError Unit) (resolved_index : Option Nat) :
    Except NlError CanInterface :=
  match send_result with
  | .error e => .error e
  | .ok () =>
    match index with
    | some if_index => .ok { if_index }
    | none =>
      match resolved_index with
      | some if_index => .ok { if_index }
      | none => .error (NlError.Msg create_race_msg)

/-- `CanInterface::delete`: on success the handle is consumed (`Ok(())`);
on failure the original handle is handed back to the caller together with
the error (`Err((self, err))`). -/
def CanInterface.delete (iface : CanInterface)
    (send_result : Except NlError Unit) : Except (CanInterface × NlError) Unit :=
  match send_result with
  | .ok () => .ok ()
  | .error err => .error (iface, err)

/-- The `can_bittiming` record of `mod rt` (`#[repr(C)]`, eight `u32`
fields). -/
structure can_bittiming where
  bitrate : Nat
  sample_point : Nat
  tq : Nat
  prop_seg : Nat
  phase_seg1 : Nat
  phase_seg2 : Nat
  sjw : Nat
  brp : Nat
  deriving DecidableEq

/-- Native-endian byte view of a `u32` (little-endian on the supported
targets); values are truncated modulo 2^32 exactly as a machine store
would. -/
def u32ToNeBytes (n : Nat) : List Nat :=
  [n % 256, n / 256 % 256, n / 65536 % 256, n / 16777216 % 256]

/-- The raw-parts view of a `can_bittiming` taken by `set_bitrate`
(`slice::from_raw_parts(&timing as *const _ as *const u8, size_of::<..>())`):
the eight `u32` fields laid out consecutively in native byte order with no
padding, 32 bytes in total. -/
def encodeBittiming (r : can_bittiming) : List Nat :=
  u32ToNeBytes r.bitrate ++ u32ToNeBytes r.sample_point ++ u32ToNeBytes r.tq ++
    u32ToNeBytes r.prop_seg ++ u32ToNeBytes r.phase_seg1 ++
    u32ToNeBytes r.phase_seg2 ++ u32ToNeBytes r.sjw ++ u32ToNeBytes r.brp

/-- Reading a 32-byte buffer back as a `can_bittiming` under the same
`#[repr(C)]` native-endian layout; the inverse view used to state the
byte-exactness of `encodeBittiming` (the source only exercises encoding). -/
def decodeBittiming : List Nat → can_bittiming
  | [a0, a1, a2, a3, b0, b1, b2, b3, c0, c1, c2, c3, d0, d1, d2, d3,
     e0, e1, e2, e3, f0, f1, f2, f3, g0, g1, g2, g3, h0, h1, h2, h3] =>
    { bitrate := u32FromNeBytes [a0, a1, a2, a3]
      sample_point := u32FromNeBytes [b0, b1, b2, b3]
      tq := u32FromNeBytes [c0, c1, c2, c3]
      prop_seg := u32FromNeBytes [d0, d1, d2, d3]
      phase_seg1 := u32FromNeBytes [e0, e1, e2, e3]
      phase_seg2 := u32FromNeBytes [f0, f1, f2, f3]
      sjw := u32FromNeBytes [g0, g1, g2, g3]
      brp := u32FromNeBytes [h0, h1, h2, h3] }
  | _ => { bitrate := 0, sample_point := 0, tq := 0, prop_seg := 0,
           phase_seg1 := 0, phase_seg2 := 0, sjw := 0, brp := 0 }

/-- The `can_bittiming` value built inside `set_bitrate`: the given bitrate,
`sample_point.unwrap_or(0)`, and every other field zero. -/
def setBitrateTiming (bitrate : Nat) (sample_point : Option Nat) : can_bittiming :=
  { bitrate := bitrate
    sample_point := sample_point.getD 0
    tq := 0
    prop_seg := 0
    phase_seg1 := 0
    phase_seg2 := 0
    sjw := 0
    brp := 0 }

/-- Native-endian byte view of a `u16` (the length and type fields of a
route attribute header). -/
def u16ToNeBytes (n : Nat) : List Nat :=
  [n % 256, n / 256 % 256]

/-- Netlink route-attribute alignment: round up to the next multiple of 4
(`RTA_ALIGNTO`). -/
def rtaAlign (n : Nat) : Nat :=
  (n + 3) / 4 * 4

/-- A route attribute under construction (`neli`'s `Rtattr` on the sending
side): the numeric type code and the raw payload bytes.  Nested attributes
are serialized into the parent's payload, exactly as
`Rtattr::add_nested_attribute` does. -/
structure RtattrBytes where
  rta_type : Nat
  rta_payload : List Nat
  deriving DecidableEq

/-- `rta_len` of an attribute: the 4-byte header plus the (unpadded)
payload. -/
def RtattrBytes.size (a : RtattrBytes) : Nat :=
  4 + a.rta_payload.length

/-- Wire form of an attribute: length, type, payload, zero padding up to the
4-byte boundary. -/
def RtattrBytes.toBytes (a : RtattrBytes) : List Nat :=
  u16ToNeBytes a.size ++ u16ToNeBytes a.rta_type ++ a.rta_payload ++
    List.replicate (rtaAlign a.size - a.size) 0

/-- `Rtattr::add_nested_attribute`: serialize the child and append it to the
parent's payload (the parent's length field is recomputed from the payload,
so it needs no separate bookkeeping here). -/
def RtattrBytes.add_nested_attribute (parent child : RtattrBytes) : RtattrBytes :=
  { parent with rta_payload := parent.rta_payload ++ child.toBytes }

/-- NUL-terminated byte form of an ASCII string payload, as `neli`
serializes a `&str` attribute value (src/nl.rs only ever sends the ASCII
strings "can" and interface names). -/
def asciiZ (s : String) : List Nat :=
  s.data.map Char.toNat ++ [0]

/-- Numeric attribute type codes used by the builders in src/nl.rs
(`Ifla::Linkinfo`, `IflaInfo::Kind`, `IflaInfo::Data`,
`rt::IflaCan::BitTiming`). -/
def IFLA_LINKINFO : Nat := 18

def IFLA_INFO_KIND : Nat := 1

def IFLA_INFO_DATA : Nat := 2

def IFLA_CAN_BITTIMING : Nat := 1

/-- The `IflaInfo::Data` attribute built inside `set_bitrate`: an empty
`Data` attribute with the `BitTiming` attribute (the 32-byte encoded
`can_bittiming`) nested into it.  The source builds exactly this value into
its local `data` variable. -/
def set_bitrate_data_attr (bitrate : Nat) (sample_point : Option Nat) : RtattrBytes :=
  RtattrBytes.add_nested_attribute
    { rta_type := IFLA_INFO_DATA, rta_payload := [] }
    { rta_type := IFLA_CAN_BITTIMING,
      rta_payload := encodeBittiming (setBitrateTiming bitrate sample_point) }

/-- The interface-info message (`Ifinfomsg::new`) on the sending side:
address family (`RtAddrFamily::Unspecified` = 0), link-layer type
(`Arphrd::Netrom` = 0), interface index, flag/change masks, and the
attribute buffer in serialized form. -/
structure IfinfomsgSer where
  ifi_family : Nat
  ifi_type : Nat
  ifi_index : Nat
  ifi_flags : List Nat
  ifi_change : List Nat
  rtattrs : List RtattrBytes
  deriving DecidableEq

/-- The message built by `CanInterface::set_bitrate`: a `Linkinfo` attribute
into which `Kind("can")` is nested.  The `Data` attribute carrying the
encoded bit-timing record is built into the local `data` (here `_data`,
mirroring the source's dead local) but — exactly as in the source — never
nested into `link_info` and never pushed into the buffer. -/
def CanInterface.set_bitrate_msg (iface : CanInterface) (bitrate : Nat)
    (sample_point : Option Nat) : IfinfomsgSer :=
  { ifi_family := 0
    ifi_type := 0
    ifi_index := iface.if_index
    ifi_flags := []
    ifi_change := []
    rtattrs :=
      let link_info :=
        RtattrBytes.add_nested_attribute
          { rta_type := IFLA_LINKINFO, rta_payload := [] }
          { rta_type := IFLA_INFO_KIND, rta_payload := asciiZ "can" }
      let _data := set_bitrate_data_attr bitrate sample_point
      [link_info] }

deriving instance DecidableEq for Except

/-! Helper lemmas about the attribute loop of `details`. -/

theorem details_attr_step_mtu_of_ne (info : Details) (a : Rtattr)
    (h : a.rta_type ≠ Ifla.Mtu) :
    (details_attr_step info a).mtu = info.mtu := by
  obtain ⟨t, bs⟩ := a
  cases t with
  | Ifname => cases hd : decodeName bs <;> simp [details_attr_step, hd]
  | Mtu => exact absurd rfl h
  | Other c => simp [details_attr_step]

theorem details_attr_step_name_of (info : Details) (a : Rtattr)
    (h : a.rta_type = Ifla.Ifname → decodeName a.rta_payload = none) :
    (details_attr_step info a).name = info.name := by
  obtain ⟨t, bs⟩ := a
  cases t with
  | Ifname => simp [details_attr_step, h rfl]
  | Mtu => by_cases hl : bs.length = 4 <;> simp [details_attr_step, hl]
  | Other c => simp [details_attr_step]

theorem details_attr_step_index (info : Details) (a : Rtattr) :
    (details_attr_step info a).index = info.index := by
  obtain ⟨t, bs⟩ := a
  cases t with
  | Ifname => cases hd : decodeName bs <;> simp [details_attr_step, hd]
  | Mtu => by_cases hl : bs.length = 4 <;> simp [details_attr_step, hl]
  | Other c => simp [details_attr_step]

theorem foldl_details_attr_step_mtu (l : List Rtattr) :
    ∀ info : Details, (∀ a ∈ l, a.rta_type ≠ Ifla.Mtu) →
      (l.foldl details_attr_step info).mtu = info.mtu := by
  induction l with
  | nil => intro info _; rfl
  | cons a l ih =>
    intro info h
    simp only [List.foldl_cons]
    rw [ih _ fun b hb => h b (List.mem_cons_of_mem a hb),
      details_attr_step_mtu_of_ne info a (h a (List.mem_cons_self a l))]

theorem foldl_details_attr_step_name (l : List Rtattr) :
    ∀ info : Details,
      (∀ a ∈ l, a.rta_type = Ifla.Ifname → decodeName a.rta_payload = none) →
      (l.foldl details_attr_step info).name = info.name := by
  induction l with
  | nil => intro info _; rfl
  | cons a l ih =>
    intro info h
    simp only [List.foldl_cons]
    rw [ih _ fun b hb => h b (List.mem_cons_of_mem a hb),
      details_attr_step_name_of info a (h a (List.mem_cons_self a l))]

theorem foldl_details_attr_step_index (l : List Rtattr) :
    ∀ info : Details, (l.foldl details_attr_step info).index = info.index := by
  induction l with
  | nil => intro info; rfl
  | cons a l ih =>
    intro info
    simp only [List.foldl_cons]
    rw [ih, details_attr_step_index]

/-- C1 (code defect): at interface index 1, bitrate 500000, sample point 750,
the message built by `set_bitrate` carries a single `Linkinfo` attribute
whose payload is exactly the serialized `Kind("can")` attribute — the
`Data` attribute, although fully built (as the second conjunct shows: a
`Data` payload holding the serialized `BitTiming` attribute with the
32-byte record), is never nested into `Linkinfo` and never pushed, so no
`Data`/`BitTiming` subtree appears in the attribute tree. -/
theorem set_bitrate_msg_omits_bittiming_data :
    ((CanInterface.mk 1).set_bitrate_msg 500000 (some 750)).rtattrs
        = [{ rta_type := IFLA_LINKINFO, rta_payload := [8, 0, 1, 0, 99, 97, 110, 0] }] ∧
      (set_bitrate_data_attr 500000 (some 750)).rta_payload
        = [36, 0, 1, 0] ++ encodeBittiming (setBitrateTiming 500000 (some 750)) ∧
      (encodeBittiming (setBitrateTiming 500000 (some 750))).length = 32 := by
  decide

/-- C2: the bit-timing record built by `set_bitrate` encodes to exactly 32
bytes with no padding; reading the bytes back under the same native-endian
layout recovers the record; and the record has the given bitrate, the given
sample point (0 when absent), and zero in every other field. -/
theorem set_bitrate_timing_encoding (bitrate : Nat) (sample_point : Option Nat)
    (hb : bitrate < 4294967296) (hs : sample_point.getD 0 < 65536) :
    (encodeBittiming (setBitrateTiming bitrate sample_point)).length = 32 ∧
      decodeBittiming (encodeBittiming (setBitrateTiming bitrate sample_point))
        = setBitrateTiming bitrate sample_point ∧
      (setBitrateTiming bitrate sample_point).bitrate = bitrate ∧
      (setBitrateTiming bitrate sample_point).sample_point = sample_point.getD 0 ∧
      (setBitrateTiming bitrate sample_point).tq = 0 ∧
      (setBitrateTiming bitrate sample_point).prop_seg = 0 ∧
      (setBitrateTiming bitrate sample_point).phase_seg1 = 0 ∧
      (setBitrateTiming bitrate sample_point).phase_seg2 = 0 ∧
      (setBitrateTiming bitrate sample_point).sjw = 0 ∧
      (setBitrateTiming bitrate sample_point).brp = 0 := by
  refine ⟨?_, ?_, rfl, rfl, rfl, rfl, rfl, rfl, rfl, rfl⟩
  · simp [encodeBittiming, u32ToNeBytes, setBitrateTiming]
  · simp only [setBitrateTiming, encodeBittiming, u32ToNeBytes,
      List.cons_append, List.nil_append]
    simp only [decodeBittiming, u32FromNeBytes, can_bittiming.mk.injEq]
    refine ⟨?_, ?_, ?_, ?_, ?_, ?_, ?_, ?_⟩ <;> first | trivial | omega

/-- Witness for C2 at the spec's concrete instance: bitrate 500000, sample
point 750. -/
theorem set_bitrate_timing_encoding_witness :
    (encodeBittiming (setBitrateTiming 500000 (some 750))).length = 32 ∧
      decodeBittiming (encodeBittiming (setBitrateTiming 500000 (some 750)))
        = setBitrateTiming 500000 (some 750) ∧
      (setBitrateTiming 500000 (some 750)).bitrate = 500000 ∧
      (setBitrateTiming 500000 (some 750)).sample_point = 750 ∧
      (setBitrateTiming 500000 (some 750)).tq = 0 ∧
      (setBitrateTiming 500000 (some 750)).prop_seg = 0 ∧
      (setBitrateTiming 500000 (some 750)).phase_seg1 = 0 ∧
      (setBitrateTiming 500000 (some 750)).phase_seg2 = 0 ∧
      (setBitrateTiming 500000 (some 750)).sjw = 0 ∧
      (setBitrateTiming 500000 (some 750)).brp = 0 := by
  have h := set_bitrate_timing_encoding 500000 (some 750) (by decide) (by decide)
  simpa using h

/-- C3: in the decode loop of `details`, an MTU attribute (here the sole one
in the reply, surrounded by arbitrary non-MTU attributes) is accepted only
with a payload of exactly 4 bytes; the 4-byte native-endian value 16 yields
`some Standard`, 72 yields `some Fd`, and any other value or any other
payload length leaves `mtu = none` — and the call still succeeds (the
result type `Option Mtu` carries no raw number). -/
theorem details_mtu_allowlist (iface : CanInterface) (flags : List IffFlag)
    (pre post : List Rtattr) (bs : List Nat)
    (hpre : ∀ a ∈ pre, a.rta_type ≠ Ifla.Mtu)
    (hpost : ∀ a ∈ post, a.rta_type ≠ Ifla.Mtu) :
    ∃ d, iface.details (.ok (some ⟨NlPayload.Payload
        ⟨flags, pre ++ ⟨Ifla.Mtu, bs⟩ :: post⟩⟩)) = .ok d ∧
      d.mtu = if bs.length = 4 then
          (match u32FromNeBytes bs with
            | 16 => some Mtu.Standard
            | 72 => some Mtu.Fd
            | _ => none)
        else none := by
  refine ⟨_, rfl, ?_⟩
  rw [List.foldl_append]
  simp only [List.foldl_cons]
  rw [foldl_details_attr_step_mtu post _ hpost]
  by_cases hl : bs.length = 4
  · simp [details_attr_step, hl]
  · simp only [details_attr_step, hl, if_false]
    rw [foldl_details_attr_step_mtu pre _ hpre]

/-- Witness for C3: a reply with the single MTU attribute `[72, 0, 0, 0]`
decodes to `mtu = some Fd`. -/
theorem details_mtu_allowlist_witness :
    ∃ d, (CanInterface.mk 7).details (.ok (some ⟨NlPayload.Payload
        ⟨[], [] ++ ⟨Ifla.Mtu, [72, 0, 0, 0]⟩ :: []⟩⟩)) = .ok d ∧
      d.mtu = some Mtu.Fd := by
  obtain ⟨d, h1, h2⟩ := details_mtu_allowlist ⟨7⟩ [] [] [] [72, 0, 0, 0]
    (by simp) (by simp)
  refine ⟨d, h1, ?_⟩
  rw [h2]
  decide

/-- C4: whenever every interface-name attribute of the reply fails the
NUL-terminated/UTF-8 decoding (missing NUL terminator, interior NUL, or
invalid UTF-8), `details` still returns `Ok` and merely leaves the name
field `none`. -/
theorem details_name_failure_graceful (iface : CanInterface)
    (flags : List IffFlag) (attrs : List Rtattr)
    (h : ∀ a ∈ attrs, a.rta_type = Ifla.Ifname → decodeName a.rta_payload = none) :
    ∃ d, iface.details (.ok (some ⟨NlPayload.Payload ⟨flags, attrs⟩⟩)) = .ok d ∧
      d.name = none := by
  refine ⟨_, rfl, ?_⟩
  rw [foldl_details_attr_step_name attrs _ h]

/-- Witness for C4: a reply whose single name attribute `[104, 105]` lacks
the NUL terminator still yields `Ok` with `name = none`. -/
theorem details_name_failure_graceful_witness :
    ∃ d, (CanInterface.mk 2).details (.ok (some ⟨NlPayload.Payload
        ⟨[], [⟨Ifla.Ifname, [104, 105]⟩]⟩⟩)) = .ok d ∧ d.name = none := by
  exact details_name_failure_graceful ⟨2⟩ [] [⟨Ifla.Ifname, [104, 105]⟩] (by decide)

/-- C5: in `details`, an error of the reply read itself — in particular a
deserialization (`De`) error, raised when the interface-info payload cannot
be decoded at all — propagates as the operation's failure result, while a
successfully received message always yields `Ok` no matter what the
individual name/MTU attribute payloads contain. -/
theorem details_error_propagation_policy :
    (∀ (iface : CanInterface) (s : String),
        iface.details (.error (NlError.De s)) = .error (NlError.De s)) ∧
      (∀ (iface : CanInterface) (hdr : Nlmsghdr Ifinfomsg),
        ∃ d, iface.details (.ok (some hdr)) = .ok d) := by
  refine ⟨fun iface s => rfl, fun iface hdr => ?_⟩
  obtain ⟨pl⟩ := hdr
  cases pl with
  | Payload p => exact ⟨_, rfl⟩
  | Ack => exact ⟨_, rfl⟩
  | Empty => exact ⟨_, rfl⟩

/-- C6: after an acknowledged creation, an explicitly given index is trusted
as the handle's binding whatever the name would resolve to; without one the
name is re-resolved, a successful resolution binds the handle to the
resolved index, and a failed resolution yields the dedicated `Msg` race
error, which is distinct from every kernel error code. -/
theorem create_index_binding :
    (∀ (name : String) (i : Nat) (resolved : Option Nat),
        CanInterface.create name (some i) (.ok ()) resolved = .ok ⟨i⟩) ∧
      (∀ (name : String) (j : Nat),
        CanInterface.create name none (.ok ()) (some j) = .ok ⟨j⟩) ∧
      (∀ name : String,
        CanInterface.create name none (.ok ()) none
          = .error (NlError.Msg create_race_msg)) ∧
      NlError.isKernelCode (NlError.Msg create_race_msg) = false := by
  exact ⟨fun _ _ _ => rfl, fun _ _ => rfl, fun _ => rfl, rfl⟩

/-- C7: `delete` returns plain `Ok` on success (the handle is consumed), and
on failure hands the very same handle — its interface index unchanged —
back to the caller together with the error. -/
theorem delete_returns_handle_on_failure :
    (∀ iface : CanInterface, iface.delete (.ok ()) = .ok ()) ∧
      (∀ (iface : CanInterface) (e : NlError),
        iface.delete (.error e) = .error (iface, e)) := by
  exact ⟨fun _ => rfl, fun _ _ => rfl⟩

/-- C8: every request header carries the `Request` flag; all six mutating
operations additionally carry `Ack`; `create` additionally carries `Create`
and `Excl`; and the `details` query carries exactly `[Request]`. -/
theorem header_flags_per_operation :
    (NlmF.Request ∈ create_flags ∧ NlmF.Request ∈ delete_flags ∧
        NlmF.Request ∈ bring_up_flags ∧ NlmF.Request ∈ bring_down_flags ∧
        NlmF.Request ∈ set_mtu_flags ∧ NlmF.Request ∈ set_bitrate_flags ∧
        NlmF.Request ∈ details_flags) ∧
      (NlmF.Ack ∈ create_flags ∧ NlmF.Ack ∈ delete_flags ∧
        NlmF.Ack ∈ bring_up_flags ∧ NlmF.Ack ∈ bring_down_flags ∧
        NlmF.Ack ∈ set_mtu_flags ∧ NlmF.Ack ∈ set_bitrate_flags) ∧
      (NlmF.Create ∈ create_flags ∧ NlmF.Excl ∈ create_flags) ∧
      details_flags = [NlmF.Request] := by
  decide

/-- C9 counterexample: for the query operation the absence of a
payload-carrying reply is NOT always a NoAck-class failure — a reply that
carries an Ack record instead of an interface-info payload makes `details`
return `Ok` with all-default fields, not `Err(NoAck)`. -/
theorem details_ack_reply_not_noack_counterexample :
    (CanInterface.mk 5).details (Except.ok (some ⟨NlPayload.Ack⟩))
        = Except.ok ⟨none, 5, false, none⟩ ∧
      ((CanInterface.mk 5).details (Except.ok (some ⟨NlPayload.Ack⟩))).isOk
        = true := by
  decide

/-- C9 (amended): for every mutating operation, a reply that is an Ack
record makes `send_and_read_ack` return `Ok` and the absence of any reply
yields the `NoAck` failure, which is distinct from every explicit kernel
error; for the query operation the absence of any reply likewise yields
`NoAck`, while a reply that carries no interface-info payload (e.g. an Ack
record) is not a failure: `details` returns `Ok` with all optional fields
at their defaults. -/
theorem ack_and_noack_classification :
    send_and_read_ack (P := Ifinfomsg) (.ok (some ⟨NlPayload.Ack⟩)) = .ok () ∧
      send_and_read_ack (P := Ifinfomsg) (.ok none) = .error NlError.NoAck ∧
      NlError.isKernelCode NlError.NoAck = false ∧
      (∀ iface : CanInterface,
        iface.details (.ok none) = .error NlError.NoAck) ∧
      (∀ iface : CanInterface,
        iface.details (.ok (some ⟨NlPayload.Ack⟩))
          = .ok ⟨none, iface.if_index, false, none⟩) := by
  exact ⟨rfl, rfl, rfl, fun iface => rfl, fun iface => rfl⟩

/-- C10: the index field of every `Details` value returned by `details` is
the handle's own stored interface index, whatever reply the kernel sent;
and when the reply's payload cannot be extracted, the remaining fields take
their defaults: `name = none`, `is_up = false`, `mtu = none`. -/
theorem details_index_from_handle :
    (∀ (iface : CanInterface) (hdr : Nlmsghdr Ifinfomsg) (d : Details),
        iface.details (.ok (some hdr)) = .ok d → d.index = iface.if_index) ∧
      (∀ (iface : CanInterface) (hdr : Nlmsghdr Ifinfomsg),
        hdr.get_payload = none →
        iface.details (.ok (some hdr))
          = .ok ⟨none, iface.if_index, false, none⟩) := by
  constructor
  · intro iface hdr d h
    obtain ⟨pl⟩ := hdr
    cases pl with
    | Payload p =>
      simp only [CanInterface.details, Nlmsghdr.get_payload, Except.ok.injEq] at h
      rw [← h, foldl_details_attr_step_index]
    | Ack =>
      simp only [CanInterface.details, Nlmsghdr.get_payload, Except.ok.injEq] at h
      rw [← h]
    | Empty =>
      simp only [CanInterface.details, Nlmsghdr.get_payload, Except.ok.injEq] at h
      rw [← h]
  · intro iface hdr hp
    obtain ⟨pl⟩ := hdr
    cases pl with
    | Payload p => exact absurd hp (by simp [Nlmsghdr.get_payload])
    | Ack => rfl
    | Empty => rfl

/-- Witness for C10: at index 9 and an Ack-carrying reply (whose payload
does not extract), `details` returns the default record with the handle's
index. -/
theorem details_index_from_handle_witness :
    (CanInterface.mk 9).details (.ok (some ⟨NlPayload.Ack⟩))
        = .ok ⟨none, 9, false, none⟩ ∧
      (Details.mk none 9 false none).index = 9 := by
  have h2 := details_index_from_handle.2 ⟨9⟩ ⟨NlPayload.Ack⟩ rfl
  exact ⟨h2, details_index_from_handle.1 ⟨9⟩ ⟨NlPayload.Ack⟩ _ h2⟩
